import Mathlib

/-!
# Verification of the Mastermind guess-scoring backend

Shallow embedding of the two lambda handlers of the repository:

* `src/amplify/functions/validate-guess/handler.ts` — the guess evaluator
  (exact-match pass, colour-match pass with "mark as used" via the empty
  string) and the game-state transition inside `processEvent`;
* `src/amplify/functions/get-leaderboard/handler.ts` — the leaderboard
  comparator and sort.

Pegs are modelled as `String` (the handlers receive `string[]`), the JS
number used for the colour count as `Int` (it is produced by a subtraction),
and the DynamoDB item for a game as a record whose numbered `guess{n}`
attributes are a function `Nat → Option GuessRecord`.
-/

namespace Mastermind

/-- Game status strings `'playing' | 'won' | 'lost'` of the handler. -/
inductive GameStatus where
  | playing
  | won
  | lost
deriving DecidableEq, Repr

/-- The exact-match pass of `processEvent` (handler.ts lines 32–37): the loop
runs over the indices of `payload.guess` and compares `payload.guess[i] ===
secretCode[i]`; an index beyond the end of `secretCode` compares a string to
`undefined`, which is never equal, so the count stops contributing as soon as
either list is exhausted. First argument is the secret, second the guess. -/
def exactCount : List String → List String → Nat
  | s :: ss, g :: gs => (if g = s then 1 else 0) + exactCount ss gs
  | _, _ => 0

/-- `secretIds[secretIndex] = ''` after `secretIds.indexOf(guessId)` found the
value (handler.ts line 47): replace the first occurrence of `v` by `""`. -/
def markFirst (v : String) : List String → List String
  | [] => []
  | x :: xs => if x = v then "" :: xs else x :: markFirst v xs

/-- The colour-match loop of `processEvent` (handler.ts lines 43–49): walk the
guess in order; each peg that occurs in the evolving copy of the secret bumps
the raw counter and overwrites the found slot with `""`. `indexOf(g) !== -1`
is membership; the overwrite is `markFirst`. First argument is the guess,
second the evolving secret copy. -/
def rawColorCount : List String → List String → Nat
  | [], _ => 0
  | g :: gs, secretIds =>
    if g ∈ secretIds then rawColorCount gs (markFirst g secretIds) + 1
    else rawColorCount gs secretIds

/-- The guess evaluator of `processEvent` (handler.ts lines 29–51):
`correctPosition` from the exact pass, then `correctColor` as the raw colour
counter minus `correctPosition` (a JS subtraction, hence `Int`). -/
def evaluate (secret guess : List String) : Nat × Int :=
  let correctPosition := exactCount secret guess
  let correctColor : Int := (rawColorCount guess secret : Int) - correctPosition
  (correctPosition, correctColor)

/-- The value stored under the `guess{n}` attribute by the `UpdateCommand`
(handler.ts lines 68–73). -/
structure GuessRecord where
  guess : List String
  blackPegs : Nat
  whitePegs : Int
deriving DecidableEq, Repr

/-- The DynamoDB game item as `processEvent` sees it: `secretCode` and
`totalGuesses` are destructured from the fetched item (the `= 0` default for a
missing `totalGuesses` is applied here), `gameStatus` is a stored attribute the
function writes but never reads, and `guesses` models the numbered `guess{n}`
attributes. -/
structure Game where
  secretCode : List String
  totalGuesses : Nat
  gameStatus : GameStatus
  guesses : Nat → Option GuessRecord

/-- The payload returned by `processEvent` (handler.ts lines 88–95). -/
structure GuessResult where
  guess : List String
  blackPegs : Nat
  whitePegs : Int
  guessNumber : Nat
  gameStatus : GameStatus
  secretCode : Option (List String)
deriving DecidableEq, Repr

/-- The body of `processEvent` after the fetch (handler.ts lines 25–95):
score the guess, compute the next status (`won` if every position matched,
else `lost` from guess number 10 on, else `playing`), write the record under
`guess{guessNumber}` together with the new `totalGuesses` and `gameStatus`
(the `UpdateCommand`, modelled as the returned updated item), and redact the
secret from the response unless the resulting status is `won` or `lost`. -/
def applyGuess (game : Game) (payloadGuess : List String) : GuessResult × Game :=
  let secretCode := game.secretCode
  let guessNumber := game.totalGuesses + 1
  let correctPosition := exactCount secretCode payloadGuess
  let correctColor : Int :=
    (rawColorCount payloadGuess secretCode : Int) - correctPosition
  let gameStatus : GameStatus :=
    if correctPosition = secretCode.length then .won
    else if guessNumber ≥ 10 then .lost
    else .playing
  let newRecord : GuessRecord :=
    { guess := payloadGuess, blackPegs := correctPosition, whitePegs := correctColor }
  let updatedGame : Game :=
    { game with
      totalGuesses := guessNumber
      gameStatus := gameStatus
      guesses := fun k => if k = guessNumber then some newRecord else game.guesses k }
  let returnSecretCode : Option (List String) :=
    if gameStatus = .won then some secretCode
    else if gameStatus = .lost then some secretCode
    else none
  ({ guess := payloadGuess
     blackPegs := correctPosition
     whitePegs := correctColor
     guessNumber := guessNumber
     gameStatus := gameStatus
     secretCode := returnSecretCode },
   updatedGame)

/-- The only error `processEvent` can raise: `throw new Error('Game not
found')` (handler.ts line 22). No other validation exists in the function. -/
inductive GameError where
  | gameNotFound
deriving DecidableEq, Repr

/-- `processEvent` (handler.ts lines 12–96): the DynamoDB fetch is modelled by
the `Option Game` argument; a missing item raises `gameNotFound`, otherwise
the guess is processed unconditionally by `applyGuess`. -/
def processEvent (stored : Option Game) (payloadGuess : List String) :
    Except GameError (GuessResult × Game) :=
  match stored with
  | none => .error .gameNotFound
  | some game => .ok (applyGuess game payloadGuess)

/-- A leaderboard item as typed in `get-leaderboard/handler.ts` lines 8–13. -/
structure LeaderboardItem where
  gamesWon : Int
  bestScore : Int
  difficulty : String
deriving DecidableEq, Repr

/-- The comparator of `get-leaderboard/handler.ts` lines 49–54, read as a
"less or equal" test: the comparator value is `b.gamesWon - a.gamesWon` when
the win counts differ and `a.bestScore - b.bestScore` otherwise, and `a` may
stay before `b` exactly when that value is `≤ 0`. -/
def lbLe (a b : LeaderboardItem) : Bool :=
  if a.gamesWon = b.gamesWon then a.bestScore ≤ b.bestScore
  else b.gamesWon ≤ a.gamesWon

/-- The `.sort(...)` call of `get-leaderboard/handler.ts` line 49.
`Array.prototype.sort` is stable (ECMAScript 2019), and the comparator is
consistent, so the call is a stable sort by `lbLe`, modelled by `mergeSort`. -/
def rank (items : List LeaderboardItem) : List LeaderboardItem :=
  items.mergeSort lbLe

/-- The colour-match loop with the evolving secret copy abstracted to its
multiset: consuming a found peg removes one occurrence and adds one `""`. -/
def rawM : List String → Multiset String → Nat
  | [], _ => 0
  | g :: gs, S => if g ∈ S then rawM gs ("" ::ₘ S.erase g) + 1 else rawM gs S

/-- A game already won at its first guess (stored status `won`). -/
def gameWon : Game :=
  { secretCode := ["A", "B"]
    totalGuesses := 1
    gameStatus := .won
    guesses := fun k => if k = 1 then some ⟨["A", "B"], 2, 0⟩ else none }

/-- A fresh three-peg game in status `playing`. -/
def gameABC : Game :=
  { secretCode := ["A", "B", "C"]
    totalGuesses := 0
    gameStatus := .playing
    guesses := fun _ => none }

/-- A fresh one-peg game in status `playing`. -/
def gameA : Game :=
  { secretCode := ["A"]
    totalGuesses := 0
    gameStatus := .playing
    guesses := fun _ => none }

/-! ## Helper lemmas about the colour-match loop -/

theorem markFirst_coe {v : String} :
    ∀ {S : List String}, v ∈ S →
      ((markFirst v S : List String) : Multiset String) =
        "" ::ₘ (↑S : Multiset String).erase v := by
  intro S
  induction S with
  | nil => intro h; cases h
  | cons x xs ih =>
    intro hv
    by_cases hx : x = v
    · subst hx
      simp [markFirst, Multiset.erase_cons_head]
    · have hv' : v ∈ xs := by
        cases hv with
        | head => exact absurd rfl hx
        | tail _ h => exact h
      calc ((markFirst v (x :: xs) : List String) : Multiset String)
          = x ::ₘ ((markFirst v xs : List String) : Multiset String) := by
            simp [markFirst, hx]
        _ = x ::ₘ ("" ::ₘ (↑xs : Multiset String).erase v) := by rw [ih hv']
        _ = "" ::ₘ x ::ₘ (↑xs : Multiset String).erase v := Multiset.cons_swap _ _ _
        _ = "" ::ₘ (↑(x :: xs) : Multiset String).erase v := by
            rw [← Multiset.cons_coe, Multiset.erase_cons_tail _ (by simpa using hx)]

theorem rawColorCount_eq_rawM :
    ∀ (gs S : List String), rawColorCount gs S = rawM gs (↑S : Multiset String) := by
  intro gs
  induction gs with
  | nil => intro S; rfl
  | cons g gs ih =>
    intro S
    by_cases hg : g ∈ S
    · rw [rawColorCount, if_pos hg, rawM, if_pos (Multiset.mem_coe.mpr hg),
        ih (markFirst g S), markFirst_coe hg, Multiset.coe_erase]
    · rw [rawColorCount, if_neg hg, rawM, if_neg (fun h => hg (Multiset.mem_coe.mp h)), ih S]

theorem rawM_le_length : ∀ (gs : List String) (S : Multiset String), rawM gs S ≤ gs.length := by
  intro gs
  induction gs with
  | nil => intro S; exact Nat.le_refl 0
  | cons g gs ih =>
    intro S
    rw [rawM]
    split
    · exact Nat.succ_le_succ (ih _)
    · exact Nat.le_succ_of_le (ih _)

theorem inter_mono {S S' T : Multiset String} (h : S ≤ S') : S ∩ T ≤ S' ∩ T :=
  Multiset.le_inter ((Multiset.inter_le_left S T).trans h) (Multiset.inter_le_right S T)

theorem card_inter_le_rawM :
    ∀ (gs : List String) (S : Multiset String),
      Multiset.card (S ∩ (↑gs : Multiset String)) ≤ rawM gs S := by
  intro gs
  induction gs with
  | nil => intro S; simp [rawM]
  | cons g gs ih =>
    intro S
    rw [rawM]
    by_cases hg : g ∈ S
    · rw [if_pos hg, ← Multiset.cons_coe, Multiset.inter_comm,
        Multiset.cons_inter_of_pos _ hg, Multiset.card_cons]
      have h1 : (↑gs : Multiset String) ∩ S.erase g ≤
          ("" ::ₘ S.erase g) ∩ (↑gs : Multiset String) := by
        rw [Multiset.inter_comm]
        exact inter_mono (Multiset.le_cons_self _ _)
      exact Nat.succ_le_succ ((Multiset.card_le_card h1).trans (ih _))
    · rw [if_neg hg, ← Multiset.cons_coe, Multiset.inter_comm,
        Multiset.cons_inter_of_neg _ hg, Multiset.inter_comm]
      exact ih S

theorem rawM_eq_card_inter :
    ∀ (gs : List String) (S : Multiset String), "" ∉ gs →
      rawM gs S = Multiset.card (S ∩ (↑gs : Multiset String)) := by
  intro gs
  induction gs with
  | nil => intro S _; simp [rawM]
  | cons g gs ih =>
    intro S hne
    have hg' : ("" : String) ∉ gs := fun h => hne (List.mem_cons_of_mem _ h)
    have hgne : g ≠ "" := fun h => hne (h ▸ List.mem_cons_self _ _)
    rw [rawM, ← Multiset.cons_coe]
    by_cases hg : g ∈ S
    · rw [if_pos hg, Multiset.inter_comm, Multiset.cons_inter_of_pos _ hg,
        Multiset.card_cons, ih _ hg',
        Multiset.cons_inter_of_neg _ (fun h => hg' (Multiset.mem_coe.mp h)),
        Multiset.inter_comm]
    · rw [if_neg hg, Multiset.inter_comm, Multiset.cons_inter_of_neg _ hg,
        Multiset.inter_comm, ih _ hg']

theorem exactCount_le_card_inter :
    ∀ (s g : List String),
      exactCount s g ≤ Multiset.card ((↑s : Multiset String) ∩ (↑g : Multiset String)) := by
  intro s
  induction s with
  | nil => intro g; cases g <;> simp [exactCount]
  | cons x ss ih =>
    intro g
    cases g with
    | nil => simp [exactCount]
    | cons y gs =>
      rw [exactCount, ← Multiset.cons_coe, ← Multiset.cons_coe]
      by_cases hxy : y = x
      · subst hxy
        rw [Multiset.cons_inter_of_pos _ (Multiset.mem_cons_self _ _),
          Multiset.erase_cons_head, Multiset.card_cons, if_pos rfl]
        have := ih gs
        omega
      · rw [if_neg hxy]
        have hmono : (↑ss : Multiset String) ∩ (↑gs : Multiset String) ≤
            (x ::ₘ (↑ss : Multiset String)) ∩ (y ::ₘ (↑gs : Multiset String)) :=
          Multiset.le_inter
            ((Multiset.inter_le_left _ _).trans (Multiset.le_cons_self _ _))
            ((Multiset.inter_le_right _ _).trans (Multiset.le_cons_self _ _))
        exact Nat.le_trans (by simpa using ih gs) (Multiset.card_le_card hmono)

theorem rawM_eq_length_of_le :
    ∀ (gs : List String) (S : Multiset String), (↑gs : Multiset String) ≤ S →
      rawM gs S = gs.length := by
  intro gs
  induction gs with
  | nil => intro S _; rfl
  | cons g gs ih =>
    intro S h
    rw [← Multiset.cons_coe] at h
    have hg : g ∈ S := Multiset.mem_of_le h (Multiset.mem_cons_self _ _)
    have h' : (↑gs : Multiset String) ≤ S.erase g := by
      have := Multiset.erase_le_erase g h
      rwa [Multiset.erase_cons_head] at this
    rw [rawM, if_pos hg, ih _ (h'.trans (Multiset.le_cons_self _ _))]
    rfl

theorem exactCount_self : ∀ (s : List String), exactCount s s = s.length := by
  intro s
  induction s with
  | nil => rfl
  | cons x ss ih => simp [exactCount, ih, Nat.add_comm]

/-- The colour count of `evaluate` agrees with the multiset-intersection
specification as soon as the guess contains no empty-string peg (the marker
value used by the loop). -/
theorem evaluate_color_eq_inter (s g : List String) (hg : "" ∉ g) :
    (evaluate s g).2 =
      (Multiset.card ((↑s : Multiset String) ∩ (↑g : Multiset String)) : Int) -
        (evaluate s g).1 := by
  simp only [evaluate]
  rw [rawColorCount_eq_rawM, rawM_eq_card_inter g _ hg]

/-! ## Helper lemmas about the leaderboard comparator -/

theorem lbLe_trans (a b c : LeaderboardItem) (hab : lbLe a b = true) (hbc : lbLe b c = true) :
    lbLe a c = true := by
  simp only [lbLe] at hab hbc ⊢
  split_ifs at hab hbc ⊢ <;> simp_all <;> omega

theorem lbLe_total (a b : LeaderboardItem) : lbLe a b || lbLe b a := by
  simp only [lbLe]
  split_ifs <;> simp_all <;> omega

/-- Stability of the modelled sort: a filter that only keeps comparator-tied
records commutes with the sort. -/
theorem filter_mergeSort_eq (items : List LeaderboardItem) (p : LeaderboardItem → Bool)
    (hp : ∀ a b, p a = true → p b = true → lbLe a b = true) :
    (items.mergeSort lbLe).filter p = items.filter p := by
  have hpw : (items.filter p).Pairwise (fun a b => lbLe a b = true) := by
    apply List.pairwise_of_forall_mem_list
    intro a ha b hb
    exact hp a b (List.mem_filter.mp ha).2 (List.mem_filter.mp hb).2
  have hstab : List.Sublist (items.filter p) (items.mergeSort lbLe) :=
    List.sublist_mergeSort lbLe_trans lbLe_total hpw (List.filter_sublist items)
  have hsub2 : List.Sublist (items.filter p) ((items.mergeSort lbLe).filter p) := by
    have h := hstab.filter p
    simpa only [List.filter_filter, Bool.and_self] using h
  have hlen : ((items.mergeSort lbLe).filter p).length = (items.filter p).length :=
    ((List.mergeSort_perm items lbLe).filter p).length_eq
  exact (hsub2.eq_of_length hlen.symm).symm

/-! ## Claim theorems -/

/-- C9: `rank` returns a permutation of its input ordered by `gamesWon`
descending then `bestScore` ascending, and the sort is stable: for every pair
of key values, the sublist of records carrying exactly those keys is the same
before and after ranking. -/
theorem rank_sorted_stable (items : List LeaderboardItem) :
    (rank items).Perm items ∧
      (rank items).Pairwise (fun a b =>
        b.gamesWon < a.gamesWon ∨
          (a.gamesWon = b.gamesWon ∧ a.bestScore ≤ b.bestScore)) ∧
      ∀ w s : Int,
        (rank items).filter (fun r => r.gamesWon == w && r.bestScore == s) =
          items.filter (fun r => r.gamesWon == w && r.bestScore == s) := by
  refine ⟨List.mergeSort_perm items lbLe, ?_, ?_⟩
  · have h := List.sorted_mergeSort lbLe_trans lbLe_total items
    refine h.imp ?_
    intro a b hab
    simp only [lbLe] at hab
    split_ifs at hab with hw
    · exact Or.inr ⟨hw, by simpa using hab⟩
    · have hba : b.gamesWon ≤ a.gamesWon := by simpa using hab
      exact Or.inl (lt_of_le_of_ne hba (fun e => hw e.symm))
  · intro w s
    apply filter_mergeSort_eq
    intro a b ha hb
    have ha' := ha
    have hb' := hb
    simp only [Bool.and_eq_true, beq_iff_eq] at ha' hb'
    simp [lbLe, ha'.1, ha'.2, hb'.1, hb'.2]

/-- C1: the claim says a guess against a game stored as `won` or `lost` fails
with a `GameAlreadyEnded` error, appends no guess record and changes no game
field. The code has no such check: on `gameWon` (stored status `won`) the
guess is scored, a `guess2` record is written, `totalGuesses` moves to 2 and
the stored status is even overwritten back to `playing`. -/
theorem processEvent_terminal_game_scored :
    processEvent (some gameWon) ["B", "A"] = .ok (applyGuess gameWon ["B", "A"]) ∧
      (applyGuess gameWon ["B", "A"]).2.gameStatus = .playing ∧
      (applyGuess gameWon ["B", "A"]).2.totalGuesses = 2 ∧
      (applyGuess gameWon ["B", "A"]).2.guesses 2 = some ⟨["B", "A"], 0, 2⟩ ∧
      (applyGuess gameWon ["B", "A"]).1.gameStatus = .playing :=
  ⟨rfl, by decide, by decide, by decide, by decide⟩

/-- C2: the claim says a guess whose length differs from the secret's fails
with an `InvalidGuessLength` error instead of being scored. The code performs
no length validation: the one-peg guess `["A"]` against the three-peg secret
of `gameABC` is scored as one black peg and the game continues. -/
theorem processEvent_length_mismatch_scored :
    processEvent (some gameABC) ["A"] = .ok (applyGuess gameABC ["A"]) ∧
      (applyGuess gameABC ["A"]).1 =
        { guess := ["A"], blackPegs := 1, whitePegs := 0, guessNumber := 1,
          gameStatus := .playing, secretCode := none } :=
  ⟨rfl, by decide⟩

/-- C3: the claim says the status never reverts from `won`/`lost` to
`playing` along a sequence of `applyGuess` steps. Starting from `gameA` in
status `playing`, guessing the secret `["A"]` reaches `won`, and one further
(wrong) guess recomputes the status from scratch and stores `playing` again:
the terminal status is downgraded. -/
theorem applyGuess_downgrades_won :
    (applyGuess gameA ["A"]).2.gameStatus = .won ∧
      (applyGuess (applyGuess gameA ["A"]).2 ["B"]).2.gameStatus = .playing :=
  ⟨by decide, by decide⟩

/-- C4: for a playing game and an equal-length guess the resulting status is
`won` when every position matches (whatever the ordinal), else `lost` when
the ordinal `totalGuesses + 1` has reached 10, else `playing`. -/
theorem applyGuess_status_rule (game : Game) (guess : List String)
    (hst : game.gameStatus = .playing) (hl : guess.length = game.secretCode.length) :
    ((evaluate game.secretCode guess).1 = game.secretCode.length →
      (applyGuess game guess).1.gameStatus = .won) ∧
    ((evaluate game.secretCode guess).1 ≠ game.secretCode.length →
      10 ≤ game.totalGuesses + 1 →
      (applyGuess game guess).1.gameStatus = .lost) ∧
    ((evaluate game.secretCode guess).1 ≠ game.secretCode.length →
      game.totalGuesses + 1 < 10 →
      (applyGuess game guess).1.gameStatus = .playing) := by
  simp only [evaluate, applyGuess]
  refine ⟨fun h => ?_, fun h h10 => ?_, fun h h10 => ?_⟩
  · simp [if_pos h]
  · simp [if_neg h, if_pos h10]
    omega
  · simp [if_neg h, if_neg (by omega : ¬ game.totalGuesses + 1 ≥ 10)]
    omega

/-- Witness for C4 at the one-peg game `gameA` and the winning guess. -/
theorem applyGuess_status_rule_witness :
    (gameA.gameStatus = .playing ∧
      (["A"] : List String).length = gameA.secretCode.length ∧
      (evaluate gameA.secretCode ["A"]).1 = gameA.secretCode.length) ∧
      (applyGuess gameA ["A"]).1.gameStatus = .won :=
  ⟨⟨rfl, rfl, by decide⟩, (applyGuess_status_rule gameA ["A"] rfl rfl).1 (by decide)⟩

/-- C5: the response's `secretCode` is `null` exactly when the resulting
status is `playing`, and is the game's true secret exactly when the resulting
status is `won` or `lost`. -/
theorem applyGuess_secret_disclosure (game : Game) (guess : List String) :
    ((applyGuess game guess).1.secretCode = none ↔
      (applyGuess game guess).1.gameStatus = .playing) ∧
    (((applyGuess game guess).1.gameStatus = .won ∨
        (applyGuess game guess).1.gameStatus = .lost) ↔
      (applyGuess game guess).1.secretCode = some game.secretCode) := by
  simp only [applyGuess]
  split_ifs <;> simp_all

/-- C6 counterexample: the claim as stated fails on the code twice over.  The
spec's own example `evaluate([A,B,B],[B,B,A]) = (0,3)` is wrong (position 2 is
an exact match, the code returns `(1,2)`), and without a restriction on the
empty-string peg the colour count can exceed the multiset-intersection value
(the guess `["A",""]` re-matches the slot consumed by `"A"`). -/
theorem evaluate_color_multiset_counterexample :
    evaluate ["A", "B", "B"] ["B", "B", "A"] ≠ (0, 3) ∧
      (evaluate ["A", "B"] ["A", ""]).2 ≠
        (Multiset.card (((["A", "B"] : List String) : Multiset String) ∩
          ((["A", ""] : List String) : Multiset String)) : Int) -
          (evaluate ["A", "B"] ["A", ""]).1 :=
  ⟨by decide, by decide⟩

/-- C6 (amended): for equal-length sequences containing no empty-string peg,
the colour count equals the multiset-intersection size minus the exact-match
count. -/
theorem evaluate_color_eq_inter_sub_exact (s g : List String)
    (hl : g.length = s.length) (hs : "" ∉ s) (hg : "" ∉ g) :
    (evaluate s g).2 =
      (Multiset.card ((↑s : Multiset String) ∩ (↑g : Multiset String)) : Int) -
        (evaluate s g).1 :=
  evaluate_color_eq_inter s g hg

/-- Witness for the amended C6 at `[A,B,B]` vs `[B,B,A]` (where the code
returns `(1,2)`, matching the multiset intersection of size 3). -/
theorem evaluate_color_eq_inter_sub_exact_witness :
    ((["B", "B", "A"] : List String).length = (["A", "B", "B"] : List String).length ∧
      "" ∉ (["A", "B", "B"] : List String) ∧ "" ∉ (["B", "B", "A"] : List String)) ∧
      (evaluate ["A", "B", "B"] ["B", "B", "A"]).2 =
        (Multiset.card (((["A", "B", "B"] : List String) : Multiset String) ∩
          ((["B", "B", "A"] : List String) : Multiset String)) : Int) -
          (evaluate ["A", "B", "B"] ["B", "B", "A"]).1 :=
  ⟨⟨by decide, by decide, by decide⟩,
    evaluate_color_eq_inter_sub_exact ["A", "B", "B"] ["B", "B", "A"]
      (by decide) (by decide) (by decide)⟩

/-- C7: for equal-length sequences both counts are non-negative and their sum
is at most the secret's length. -/
theorem evaluate_bounds (s g : List String) (hl : g.length = s.length) :
    0 ≤ ((evaluate s g).1 : Int) ∧ 0 ≤ (evaluate s g).2 ∧
      ((evaluate s g).1 : Int) + (evaluate s g).2 ≤ (s.length : Int) := by
  have h1 : exactCount s g ≤ rawColorCount g s := by
    rw [rawColorCount_eq_rawM]
    exact (exactCount_le_card_inter s g).trans (card_inter_le_rawM g _)
  have h2 : rawColorCount g s ≤ g.length := by
    rw [rawColorCount_eq_rawM]; exact rawM_le_length g _
  simp only [evaluate]
  refine ⟨Int.natCast_nonneg _, by omega, by omega⟩

/-- Witness for C7 at the all-colour-match pair `[A,B]` vs `[B,A]`. -/
theorem evaluate_bounds_witness :
    (["B", "A"] : List String).length = (["A", "B"] : List String).length ∧
      (0 ≤ ((evaluate ["A", "B"] ["B", "A"]).1 : Int) ∧
        0 ≤ (evaluate ["A", "B"] ["B", "A"]).2 ∧
        ((evaluate ["A", "B"] ["B", "A"]).1 : Int) + (evaluate ["A", "B"] ["B", "A"]).2 ≤
          ((["A", "B"] : List String).length : Int)) :=
  ⟨by decide, evaluate_bounds ["A", "B"] ["B", "A"] (by decide)⟩

/-- C8: a guess identical to a non-empty secret scores all exact matches and
zero colour-only matches. -/
theorem evaluate_self (s : List String) (hne : s ≠ []) :
    evaluate s s = (s.length, 0) := by
  have hraw : rawColorCount s s = s.length := by
    rw [rawColorCount_eq_rawM]
    exact rawM_eq_length_of_le s _ le_rfl
  simp [evaluate, exactCount_self, hraw]

/-- Witness for C8 at the secret `["A","B"]`. -/
theorem evaluate_self_witness :
    (["A", "B"] : List String) ≠ [] ∧
      evaluate ["A", "B"] ["A", "B"] = ((["A", "B"] : List String).length, 0) :=
  ⟨by decide, evaluate_self ["A", "B"] (by decide)⟩

/-- C10: the colour pass marks consumed secret slots with the empty string,
so an empty-string guess peg can re-match a consumed slot (first conjunct:
concrete deviation from the multiset-intersection value); when neither
sequence contains the empty string the colour count coincides with the
multiset-intersection specification (second conjunct). -/
theorem evaluate_empty_marker_spec :
    ((evaluate ["A", "B"] ["A", ""]).2 ≠
        (Multiset.card (((["A", "B"] : List String) : Multiset String) ∩
          ((["A", ""] : List String) : Multiset String)) : Int) -
          (evaluate ["A", "B"] ["A", ""]).1) ∧
      ∀ (s g : List String), "" ∉ s → "" ∉ g →
        (evaluate s g).2 =
          (Multiset.card ((↑s : Multiset String) ∩ (↑g : Multiset String)) : Int) -
            (evaluate s g).1 :=
  ⟨by decide, fun s g _ hg => evaluate_color_eq_inter s g hg⟩

/-- Witness for C10's universally quantified conjunct at `[A,B,C]` vs
`[C,A,B]`. -/
theorem evaluate_empty_marker_spec_witness :
    ("" ∉ (["A", "B", "C"] : List String) ∧ "" ∉ (["C", "A", "B"] : List String)) ∧
      (evaluate ["A", "B", "C"] ["C", "A", "B"]).2 =
        (Multiset.card (((["A", "B", "C"] : List String) : Multiset String) ∩
          ((["C", "A", "B"] : List String) : Multiset String)) : Int) -
          (evaluate ["A", "B", "C"] ["C", "A", "B"]).1 :=
  ⟨⟨by decide, by decide⟩,
    evaluate_empty_marker_spec.2 ["A", "B", "C"] ["C", "A", "B"] (by decide) (by decide)⟩

end Mastermind
